import Mathlib

/-!
Verification of the in-memory data layer of the `jfp.py` Telegram order bot:
the `OrderManager` / `UserState` stores and the idea→token intake state
machine of `handle_text_message`.

Python dictionaries are embedded as insertion-ordered association lists:
`d[k] = v` updates the value in place when the key is present and appends
otherwise, `d.get(k)` returns the first binding, `d.pop(k, None)` removes
the binding.  All machine integers involved are unbounded Python ints, so
they are embedded as `Int` / `Nat` with no wrap-around.
-/

/-- Python `d.get(k)`: first binding of `k` in the association list, if any. -/
def pyDictGet {κ β : Type} [DecidableEq κ] (l : List (κ × β)) (k : κ) : Option β :=
  match l with
  | [] => none
  | (k2, v) :: rest => if k2 = k then some v else pyDictGet rest k

/-- Python `d[k] = v`: replace the binding of `k` in place, appending when absent
(Python dicts keep insertion order and update existing slots in place). -/
def pyDictSet {κ β : Type} [DecidableEq κ] (l : List (κ × β)) (k : κ) (v : β) :
    List (κ × β) :=
  match l with
  | [] => [(k, v)]
  | (k2, w) :: rest => if k2 = k then (k, v) :: rest else (k2, w) :: pyDictSet rest k v

/-- Python `d.pop(k, None)`: remove the binding of `k`.  (Python dicts hold each key
at most once; removing every occurrence agrees with that on all dict-shaped
lists and makes the operation unconditionally idempotent.) -/
def pyDictPop {κ β : Type} [DecidableEq κ] (l : List (κ × β)) (k : κ) : List (κ × β) :=
  match l with
  | [] => []
  | (k2, w) :: rest => if k2 = k then pyDictPop rest k else (k2, w) :: pyDictPop rest k

/-- Python `d.values()` in insertion order. -/
def pyDictValues {κ β : Type} (l : List (κ × β)) : List β :=
  l.map Prod.snd

theorem pyDictGet_set_self {κ β : Type} [DecidableEq κ] (l : List (κ × β)) (k : κ) (v : β) :
    pyDictGet (pyDictSet l k v) k = some v := by
  induction l with
  | nil => simp [pyDictGet, pyDictSet]
  | cons p rest ih =>
    obtain ⟨k2, w⟩ := p
    by_cases h : k2 = k
    · simp [pyDictGet, pyDictSet, h]
    · simp [pyDictGet, pyDictSet, h, ih]

theorem pyDictGet_set_other {κ β : Type} [DecidableEq κ] (l : List (κ × β)) (k k2 : κ) (v : β)
    (h : k2 ≠ k) : pyDictGet (pyDictSet l k v) k2 = pyDictGet l k2 := by
  induction l with
  | nil => simp [pyDictGet, pyDictSet, Ne.symm h]
  | cons p rest ih =>
    obtain ⟨k3, w⟩ := p
    by_cases h3 : k3 = k
    · subst h3
      simp [pyDictGet, pyDictSet, Ne.symm h]
    · by_cases h2 : k3 = k2
      · subst h2
        simp [pyDictGet, pyDictSet, h3]
      · simp [pyDictGet, pyDictSet, h3, h2, ih]

theorem pyDictGet_pop_self {κ β : Type} [DecidableEq κ] (l : List (κ × β)) (k : κ) :
    pyDictGet (pyDictPop l k) k = none := by
  induction l with
  | nil => simp [pyDictGet, pyDictPop]
  | cons p rest ih =>
    obtain ⟨k2, w⟩ := p
    by_cases h : k2 = k
    · simp [pyDictPop, h, ih]
    · simp [pyDictGet, pyDictPop, h, ih]

theorem pyDictGet_pop_other {κ β : Type} [DecidableEq κ] (l : List (κ × β)) (k k2 : κ)
    (h : k2 ≠ k) : pyDictGet (pyDictPop l k) k2 = pyDictGet l k2 := by
  induction l with
  | nil => simp [pyDictPop]
  | cons p rest ih =>
    obtain ⟨k3, w⟩ := p
    by_cases h3 : k3 = k
    · subst h3
      simp [pyDictGet, pyDictPop, Ne.symm h, ih]
    · by_cases h2 : k3 = k2
      · subst h2
        simp [pyDictGet, pyDictPop, h3]
      · simp [pyDictGet, pyDictPop, h3, h2, ih]

theorem pyDictPop_idem {κ β : Type} [DecidableEq κ] (l : List (κ × β)) (k : κ) :
    pyDictPop (pyDictPop l k) k = pyDictPop l k := by
  induction l with
  | nil => rfl
  | cons p rest ih =>
    obtain ⟨k2, w⟩ := p
    by_cases h : k2 = k <;> simp [pyDictPop, h, ih]

/-! ## Decimal formatting of order ids

`create_order` builds ids by an f-string: `ORD` followed by
the decimal representation of the counter, left-padded with `'0'` to at
least six characters, after the literal `"ORD"`. -/

/-- The ten decimal digit characters. -/
def digitChar : Nat → Char
  | 0 => '0' | 1 => '1' | 2 => '2' | 3 => '3' | 4 => '4'
  | 5 => '5' | 6 => '6' | 7 => '7' | 8 => '8' | 9 => '9'
  | _ => '*'

/-- Numeric value of a digit character (`10` on non-digits). -/
def charVal : Char → Nat
  | '0' => 0 | '1' => 1 | '2' => 2 | '3' => 3 | '4' => 4
  | '5' => 5 | '6' => 6 | '7' => 7 | '8' => 8 | '9' => 9
  | _ => 10

/-- Most-significant-first decimal digits, fuel-structured so that it
reduces definitionally; returns `[]` for `0` and whenever the fuel is
insufficient (never the case at `decRepr`). -/
def decChars : Nat → Nat → List Char
  | 0, _ => []
  | fuel + 1, n => if n = 0 then [] else decChars fuel (n / 10) ++ [digitChar (n % 10)]

/-- Decimal representation of a natural number, as Python's `"%d"`. -/
def decRepr (n : Nat) : List Char :=
  if n = 0 then ['0'] else decChars n n

/-- Zero-pad to width 6, as Python's `"%06d"`. -/
def pad6 (n : Nat) : List Char :=
  List.replicate (6 - (decRepr n).length) '0' ++ decRepr n

/-- The order id assigned at counter value `n`: `ORD` plus `n` zero-padded
to width 6 (the `06d` format). -/
def orderIdOf (n : Nat) : String :=
  String.mk (['O', 'R', 'D'] ++ pad6 n)

/-- Value of a digit string read most-significant-first. -/
def decVal (l : List Char) : Nat :=
  l.foldl (fun a c => 10 * a + charVal c) 0

theorem charVal_digitChar {d : Nat} (h : d < 10) : charVal (digitChar d) = d := by
  interval_cases d <;> rfl

theorem decVal_go_append (l1 l2 : List Char) :
    List.foldl (fun a c => 10 * a + charVal c) 0 (l1 ++ l2)
      = List.foldl (fun a c => 10 * a + charVal c)
          (List.foldl (fun a c => 10 * a + charVal c) 0 l1) l2 := by
  simp [List.foldl_append]

theorem decVal_snoc (l : List Char) (c : Char) :
    decVal (l ++ [c]) = 10 * decVal l + charVal c := by
  simp [decVal, List.foldl_append]

theorem decVal_decChars : ∀ (fuel n : Nat), n ≤ fuel → decVal (decChars fuel n) = n := by
  intro fuel
  induction fuel with
  | zero => intro n h; interval_cases n; rfl
  | succ fuel ih =>
    intro n h
    by_cases hn : n = 0
    · simp [decChars, hn, decVal]
    · have hdiv : n / 10 ≤ fuel := by
        have : n / 10 < n := Nat.div_lt_self (Nat.pos_of_ne_zero hn) (by norm_num)
        omega
      have hrec := ih (n / 10) hdiv
      calc decVal (decChars (fuel + 1) n)
          = decVal (decChars fuel (n / 10) ++ [digitChar (n % 10)]) := by
            simp [decChars, hn]
        _ = 10 * decVal (decChars fuel (n / 10)) + charVal (digitChar (n % 10)) :=
            decVal_snoc _ _
        _ = 10 * (n / 10) + n % 10 := by
            rw [hrec, charVal_digitChar (Nat.mod_lt _ (by norm_num))]
        _ = n := by omega

theorem decVal_decRepr (n : Nat) : decVal (decRepr n) = n := by
  by_cases hn : n = 0
  · simp [decRepr, hn, decVal, charVal]
  · simp [decRepr, hn, decVal_decChars n n le_rfl]

theorem decVal_replicate_zero (k : Nat) (l : List Char) :
    decVal (List.replicate k '0' ++ l) = decVal l := by
  induction k with
  | zero => simp
  | succ k ih =>
    have : List.replicate (k + 1) '0' ++ l = '0' :: (List.replicate k '0' ++ l) := by
      simp [List.replicate_succ]
    rw [this]
    simpa [decVal, charVal] using ih

theorem decVal_pad6 (n : Nat) : decVal (pad6 n) = n := by
  rw [pad6, decVal_replicate_zero, decVal_decRepr]

theorem orderIdOf_injective : Function.Injective orderIdOf := by
  intro m n h
  have hdata : ['O', 'R', 'D'] ++ pad6 m = ['O', 'R', 'D'] ++ pad6 n := by
    have := congrArg String.data h
    simpa [orderIdOf] using this
  have hpad : pad6 m = pad6 n := by
    simpa using hdata
  have := congrArg decVal hpad
  rwa [decVal_pad6, decVal_pad6] at this

/-! ## Data model -/

/-- The `OrderStatus` enum of `jfp.py`. -/
inductive OrderStatus : Type
  | pending
  | processing
  | completed
  | cancelled
deriving DecidableEq, Repr

/-- The Persian display value of each status (the enum member values). -/
def OrderStatus.value : OrderStatus → String
  | .pending => "در انتظار بررسی"
  | .processing => "در حال انجام"
  | .completed => "تکمیل شده"
  | .cancelled => "لغو شده"

/-- The `Order` dataclass.  `bot_idea` is typed `str` in the source but the
caller at `handle_text_message` feeds it `user_state.get_data(user_id,
'bot_idea')`, whose default is Python `None`; the str-or-None slot is
embedded as `Option String`.  `created_at` receives the formatted
`datetime.now()` string, which the embedding passes in explicitly. -/
structure Order : Type where
  user_id : Int
  user_name : String
  order_id : String
  bot_idea : Option String
  bot_token : String
  bot_username : Option String
  status : OrderStatus
  created_at : String
  admin_notes : String
  estimated_price : String
  estimated_time : String
  completed_at : Option String
deriving DecidableEq, Repr

/-- The `OrderManager` store: insertion-ordered dict of orders plus the id
counter.  The mutex that guards `create_order` is modelled separately in
the lock-level interleaving semantics below. -/
structure OrderManager : Type where
  orders : List (String × Order)
  order_counter : Nat
deriving DecidableEq, Repr

/-- Constructor `OrderManager.__init__`. -/
def OrderManager.init : OrderManager :=
  { orders := [], order_counter := 1 }

/-- The order record constructed inside `create_order`, with the dataclass
defaults for the fields it does not pass. -/
def mkOrderRecord (user_id : Int) (user_name : String) (order_id : String)
    (bot_idea : Option String) (bot_token : String) (now : String) : Order :=
  { user_id := user_id
    user_name := user_name
    order_id := order_id
    bot_idea := bot_idea
    bot_token := bot_token
    bot_username := none
    status := .pending
    created_at := now
    admin_notes := ""
    estimated_price := "در حال بررسی"
    estimated_time := "در حال بررسی"
    completed_at := none }

/-- Method `OrderManager.create_order` (the body executed under `self.lock`):
format the id from the counter, construct and store the record, increment
the counter, and return the record. -/
def OrderManager.create_order (m : OrderManager) (user_id : Int) (user_name : String)
    (bot_idea : Option String) (bot_token : String) (now : String) :
    Order × OrderManager :=
  let order_id := orderIdOf m.order_counter
  let order := mkOrderRecord user_id user_name order_id bot_idea bot_token now
  (order,
    { orders := pyDictSet m.orders order_id order
      order_counter := m.order_counter + 1 })

/-- Method `OrderManager.get_order`. -/
def OrderManager.get_order (m : OrderManager) (order_id : String) : Option Order :=
  pyDictGet m.orders order_id

/-- Method `OrderManager.get_user_orders`: linear-scan filter over the values. -/
def OrderManager.get_user_orders (m : OrderManager) (user_id : Int) : List Order :=
  (pyDictValues m.orders).filter (fun o => o.user_id == user_id)

/-- Method `OrderManager.get_all_orders`: `list(self.orders.values())` — a fresh
list of the stored records, in insertion order. -/
def OrderManager.get_all_orders (m : OrderManager) : List Order :=
  pyDictValues m.orders

/-- Python truthiness of a str-or-None slot (`None` and `""` are falsy). -/
def strTruthy : Option String → Bool
  | none => false
  | some s => !s.isEmpty

/-- Method `OrderManager.update_order_status(order_id, status, notes="")`.  The
source mutates the stored record through the dict; `now` stands for the
`datetime.now()` string formatted when the first completion is recorded. -/
def OrderManager.update_order_status (m : OrderManager) (order_id : String)
    (status : OrderStatus) (notes : String) (now : String) : Bool × OrderManager :=
  match pyDictGet m.orders order_id with
  | none => (false, m)
  | some order =>
    let order := { order with status := status }
    let order := if notes = "" then order else { order with admin_notes := notes }
    let order :=
      if status = .completed ∧ strTruthy order.completed_at = false then
        { order with completed_at := some now }
      else order
    (true, { m with orders := pyDictSet m.orders order_id order })

/-- Method `OrderManager.update_order_details(order_id, price=None, time=None,
notes=None)`: partial update of the truthy arguments. -/
def OrderManager.update_order_details (m : OrderManager) (order_id : String)
    (price time notes : Option String) : Bool × OrderManager :=
  match pyDictGet m.orders order_id with
  | none => (false, m)
  | some order =>
    let order := if strTruthy price then { order with estimated_price := price.getD "" }
      else order
    let order := if strTruthy time then { order with estimated_time := time.getD "" }
      else order
    let order := if strTruthy notes then { order with admin_notes := notes.getD "" }
      else order
    (true, { m with orders := pyDictSet m.orders order_id order })

/-- The dict returned by `OrderManager.get_stats`. -/
structure Stats : Type where
  total : Nat
  pending : Nat
  processing : Nat
  completed : Nat
  estimated_revenue : Int
  completed_revenue : Int
  today_orders : Nat
  today_revenue : Int
deriving DecidableEq, Repr

/-- Expression `order.estimated_price.split()[0]` then `int(price_str.replace(',', ''))`,
under the broad `try/except: pass`: `none` when the split is empty or the
parse raises.  Python's `int(str)` builtin is taken as an environment
parameter `pyInt`. -/
def priceNum (pyInt : String → Option Int) (price : String) : Option Int :=
  match (price.split Char.isWhitespace).filter (fun w => w ≠ "") with
  | [] => none
  | w :: _ => pyInt (w.replace "," "")

/-- Method `OrderManager.get_stats`.  `pyInt` embeds the `int()` builtin and
`today` the `datetime.now().strftime('%Y-%m-%d')` string. -/
def OrderManager.get_stats (m : OrderManager) (pyInt : String → Option Int)
    (today : String) : Stats :=
  let vals := pyDictValues m.orders
  let revenue := vals.foldl
    (fun acc o =>
      if o.estimated_price ≠ "در حال بررسی" then
        match priceNum pyInt o.estimated_price with
        | some p => (acc.1 + p, if o.status = .completed then acc.2 + p else acc.2)
        | none => acc
      else acc)
    ((0 : Int), (0 : Int))
  let today_orders := vals.filter (fun o => o.created_at.startsWith today)
  let today_revenue := today_orders.foldl
    (fun acc o =>
      if o.estimated_price ≠ "در حال بررسی" then
        match priceNum pyInt o.estimated_price with
        | some p => acc + p
        | none => acc
      else acc)
    (0 : Int)
  { total := m.orders.length
    pending := (vals.filter (fun o => o.status == OrderStatus.pending)).length
    processing := (vals.filter (fun o => o.status == OrderStatus.processing)).length
    completed := (vals.filter (fun o => o.status == OrderStatus.completed)).length
    estimated_revenue := revenue.1
    completed_revenue := revenue.2
    today_orders := today_orders.length
    today_revenue := today_revenue }

/-! ## Conversation state store -/

/-- The `UserState` store: per-user dialog label plus per-user scratch dict.
The scratch values stored by the bot are message texts, so the value type is
`String`; the store itself is generic in it. -/
structure UserState (α : Type) : Type where
  user_states : List (Int × String)
  user_data : List (Int × List (String × α))

/-- Constructor `UserState.__init__`. -/
def UserState.init {α : Type} : UserState α :=
  { user_states := [], user_data := [] }

/-- Method `UserState.set_state`: unconditional overwrite. -/
def UserState.set_state {α : Type} (s : UserState α) (user_id : Int) (state : String) :
    UserState α :=
  { s with user_states := pyDictSet s.user_states user_id state }

/-- Method `UserState.get_state`: current label, or `None` when absent. -/
def UserState.get_state {α : Type} (s : UserState α) (user_id : Int) : Option String :=
  pyDictGet s.user_states user_id

/-- Method `UserState.clear_state`: `pop` the label and the scratch dict. -/
def UserState.clear_state {α : Type} (s : UserState α) (user_id : Int) : UserState α :=
  { user_states := pyDictPop s.user_states user_id
    user_data := pyDictPop s.user_data user_id }

/-- Method `UserState.set_data`: lazily create the per-user scratch dict, then
store the value under the key. -/
def UserState.set_data {α : Type} (s : UserState α) (user_id : Int) (key : String)
    (value : α) : UserState α :=
  let inner := (pyDictGet s.user_data user_id).getD []
  { s with user_data := pyDictSet s.user_data user_id (pyDictSet inner key value) }

/-- Method `UserState.get_data` with an explicit default. -/
def UserState.get_data {α : Type} (s : UserState α) (user_id : Int) (key : String)
    (default : α) : α :=
  match pyDictGet ((pyDictGet s.user_data user_id).getD []) key with
  | some v => v
  | none => default

/-- Method `UserState.get_data` at its default `default=None`: the str-or-None
result is an `Option`. -/
def UserState.get_data_opt {α : Type} (s : UserState α) (user_id : Int) (key : String) :
    Option α :=
  pyDictGet ((pyDictGet s.user_data user_id).getD []) key

/-! ## Claims about the store operations -/

/-- C4: `update_order_status` and `update_order_details` on an order id that
is not in the store return `False` and leave the whole store (records and
counter) unchanged. -/
theorem update_on_missing_order_id (m : OrderManager) (oid : String) (st : OrderStatus)
    (notes now : String) (price time notes2 : Option String)
    (h : m.get_order oid = none) :
    m.update_order_status oid st notes now = (false, m)
    ∧ m.update_order_details oid price time notes2 = (false, m) := by
  have hm : pyDictGet m.orders oid = none := h
  constructor
  · unfold OrderManager.update_order_status
    rw [hm]
  · unfold OrderManager.update_order_details
    rw [hm]

theorem update_on_missing_order_id_witness :
    OrderManager.init.update_order_status "ORD000001" .completed "" "t"
        = (false, OrderManager.init)
    ∧ OrderManager.init.update_order_details "ORD000001" none none none
        = (false, OrderManager.init) :=
  update_on_missing_order_id OrderManager.init "ORD000001" .completed "" "t"
    none none none (by decide)

/-- C5: `get_user_orders u` is exactly the filtered view of
`get_all_orders` at requester `u`: it equals the filter, is a subsequence
of `get_all_orders` (hence in creation order), and contains precisely the
orders of `u`. -/
theorem get_user_orders_spec (m : OrderManager) (u : Int) :
    m.get_user_orders u = (m.get_all_orders).filter (fun o => o.user_id == u)
    ∧ List.Sublist (m.get_user_orders u) m.get_all_orders
    ∧ ∀ o, o ∈ m.get_user_orders u ↔ o ∈ m.get_all_orders ∧ o.user_id = u := by
  refine ⟨rfl, ?_, ?_⟩
  · exact List.filter_sublist _
  · intro o
    simp [OrderManager.get_user_orders, OrderManager.get_all_orders, List.mem_filter]

/-- C6: `create_order` builds the record whose id is `ORD` plus the counter
zero-padded to 6 digits (the `06d` format) and whose status is
pending-review, stores it where `get_order` finds it, increments the
counter by one and returns the record; three calls on a fresh store yield
`ORD000001`, `ORD000002`, `ORD000003`. -/
theorem create_order_spec :
    (∀ (m : OrderManager) (uid : Int) (uname : String) (idea : Option String)
        (token now : String),
        (m.create_order uid uname idea token now).1.order_id = orderIdOf m.order_counter
      ∧ (m.create_order uid uname idea token now).1
          = mkOrderRecord uid uname (orderIdOf m.order_counter) idea token now
      ∧ (m.create_order uid uname idea token now).1.status = OrderStatus.pending
      ∧ (m.create_order uid uname idea token now).2.get_order
            ((m.create_order uid uname idea token now).1.order_id)
          = some (m.create_order uid uname idea token now).1
      ∧ (m.create_order uid uname idea token now).2.order_counter
          = m.order_counter + 1)
    ∧ (OrderManager.init.create_order 1 "a" (some "idea one") "tok" "t").1.order_id
        = "ORD000001"
    ∧ ((OrderManager.init.create_order 1 "a" (some "idea one") "tok" "t").2.create_order
          2 "b" (some "idea two") "tok" "t").1.order_id = "ORD000002"
    ∧ (((OrderManager.init.create_order 1 "a" (some "idea one") "tok" "t").2.create_order
          2 "b" (some "idea two") "tok" "t").2.create_order
          3 "c" (some "idea three") "tok" "t").1.order_id = "ORD000003" := by
  refine ⟨?_, by decide, by decide, by decide⟩
  intro m uid uname idea token now
  refine ⟨rfl, rfl, rfl, ?_, rfl⟩
  exact pyDictGet_set_self m.orders (orderIdOf m.order_counter) _

/-- C7: after `clear_state`, `get_state` is the idle `None` sentinel and
`get_data` returns the supplied default for every key; `clear_state` is
idempotent and removes both the label and the scratch data of the user. -/
theorem clear_state_spec {α : Type} (s : UserState α) (u : Int) :
    (s.clear_state u).get_state u = none
    ∧ (∀ k d, (s.clear_state u).get_data u k d = d)
    ∧ (s.clear_state u).clear_state u = s.clear_state u
    ∧ pyDictGet (s.clear_state u).user_states u = none
    ∧ pyDictGet (s.clear_state u).user_data u = none := by
  refine ⟨?_, ?_, ?_, ?_, ?_⟩
  · exact pyDictGet_pop_self s.user_states u
  · intro k d
    unfold UserState.get_data UserState.clear_state
    simp [pyDictGet_pop_self, pyDictGet]
  · unfold UserState.clear_state
    simp [pyDictPop_idem]
  · exact pyDictGet_pop_self s.user_states u
  · exact pyDictGet_pop_self s.user_data u

/-- C10: `set_data u k v` makes `get_data u k d` return `v` for every
default, and leaves every read of every other user unchanged (scratch data
is scoped to one user). -/
theorem set_data_get_data_spec {α : Type} (s : UserState α) (u : Int) (k : String) (v : α) :
    (∀ d, (s.set_data u k v).get_data u k d = v)
    ∧ ∀ u2, u2 ≠ u → ∀ k2 d2, (s.set_data u k v).get_data u2 k2 d2 = s.get_data u2 k2 d2 := by
  constructor
  · intro d
    unfold UserState.get_data UserState.set_data
    simp [pyDictGet_set_self]
  · intro u2 hne k2 d2
    unfold UserState.get_data UserState.set_data
    simp [pyDictGet_set_other _ _ _ _ hne]

theorem set_data_get_data_spec_witness :
    ((UserState.init : UserState String).set_data 1 "bot_idea" "v").get_data 1 "bot_idea" "d"
        = "v"
    ∧ ((UserState.init : UserState String).set_data 1 "bot_idea" "v").get_data 2 "x" "d"
        = (UserState.init : UserState String).get_data 2 "x" "d" :=
  ⟨(set_data_get_data_spec (UserState.init : UserState String) 1 "bot_idea" "v").1 "d",
    (set_data_get_data_spec (UserState.init : UserState String) 1 "bot_idea" "v").2 2
      (by decide) "x" "d"⟩

/-- The record written back by `update_order_status` when the order exists
(the in-place mutations of the source, as one functional update). -/
def statusUpd (o : Order) (status : OrderStatus) (notes now : String) : Order :=
  let o := { o with status := status }
  let o := if notes = "" then o else { o with admin_notes := notes }
  if status = .completed ∧ strTruthy o.completed_at = false then
    { o with completed_at := some now }
  else o

theorem update_order_status_found (m : OrderManager) (oid : String) (st : OrderStatus)
    (notes now : String) (o : Order) (h : pyDictGet m.orders oid = some o) :
    m.update_order_status oid st notes now
      = (true, { m with orders := pyDictSet m.orders oid (statusUpd o st notes now) }) := by
  unfold OrderManager.update_order_status statusUpd
  rw [h]

theorem statusUpd_status (o : Order) (st : OrderStatus) (notes now : String) :
    (statusUpd o st notes now).status = st := by
  simp only [statusUpd]
  split_ifs <;> rfl

theorem statusUpd_admin_notes (o : Order) (st : OrderStatus) (notes now : String) :
    (statusUpd o st notes now).admin_notes = if notes = "" then o.admin_notes else notes := by
  simp only [statusUpd]
  split_ifs <;> rfl

theorem statusUpd_completed_at_of_ne (o : Order) (st : OrderStatus) (notes now : String)
    (h : st ≠ .completed) :
    (statusUpd o st notes now).completed_at = o.completed_at := by
  simp only [statusUpd]
  split_ifs <;> simp_all

theorem statusUpd_completed_at_of_first (o : Order) (notes now : String)
    (h : strTruthy o.completed_at = false) :
    (statusUpd o .completed notes now).completed_at = some now := by
  simp only [statusUpd]
  split_ifs <;> simp_all

theorem statusUpd_completed_at_of_set (o : Order) (st : OrderStatus) (notes now : String)
    (h : strTruthy o.completed_at = true) :
    (statusUpd o st notes now).completed_at = o.completed_at := by
  simp only [statusUpd]
  split_ifs <;> simp_all

theorem strTruthy_some_ne {s : String} (h : s ≠ "") : strTruthy (some s) = true := by
  simp only [strTruthy, Bool.not_eq_eq_eq_not, Bool.not_true]
  exact Bool.not_eq_true _ ▸ (by
    intro hemp
    exact h ((String.isEmpty_iff s).mp hemp))

/-- C3: on an existing order, `update_order_status` overwrites the status,
overwrites the admin notes only when `notes` is non-empty, sets
`completed_at` exactly on the first completing call, and leaves an
already-set (non-empty) completion timestamp unchanged on every later
call, in particular on a second completing call. -/
theorem update_order_status_spec (m : OrderManager) (oid : String) (st : OrderStatus)
    (notes now : String) (o : Order) (h : m.get_order oid = some o) (hnow : now ≠ "") :
    (m.update_order_status oid st notes now).1 = true
    ∧ ∃ o2, (m.update_order_status oid st notes now).2.get_order oid = some o2
        ∧ o2.status = st
        ∧ o2.admin_notes = (if notes = "" then o.admin_notes else notes)
        ∧ (st ≠ OrderStatus.completed → o2.completed_at = o.completed_at)
        ∧ (st = OrderStatus.completed → strTruthy o.completed_at = false →
            o2.completed_at = some now)
        ∧ (∀ s2, o.completed_at = some s2 → s2 ≠ "" → o2.completed_at = some s2)
        ∧ (st = OrderStatus.completed → strTruthy o.completed_at = false →
            ∀ notes3 now3, ∃ o3,
              ((m.update_order_status oid st notes now).2.update_order_status oid
                  OrderStatus.completed notes3 now3).2.get_order oid = some o3
              ∧ o3.completed_at = some now) := by
  have hm : pyDictGet m.orders oid = some o := h
  rw [update_order_status_found m oid st notes now o hm]
  refine ⟨rfl, statusUpd o st notes now, ?_, statusUpd_status o st notes now,
    statusUpd_admin_notes o st notes now, ?_, ?_, ?_, ?_⟩
  · exact pyDictGet_set_self m.orders oid _
  · intro hne
    exact statusUpd_completed_at_of_ne o st notes now hne
  · intro hst hf
    subst hst
    exact statusUpd_completed_at_of_first o notes now hf
  · intro s2 hs2 hne2
    rw [statusUpd_completed_at_of_set o st notes now (by rw [hs2]; exact strTruthy_some_ne hne2)]
    exact hs2
  · intro hst hf notes3 now3
    subst hst
    have hfirst : (statusUpd o .completed notes now).completed_at = some now :=
      statusUpd_completed_at_of_first o notes now hf
    have hm2 : pyDictGet (pyDictSet m.orders oid (statusUpd o .completed notes now)) oid
        = some (statusUpd o .completed notes now) := pyDictGet_set_self m.orders oid _
    rw [update_order_status_found _ oid .completed notes3 now3 _ hm2]
    refine ⟨statusUpd (statusUpd o .completed notes now) .completed notes3 now3,
      pyDictGet_set_self _ oid _, ?_⟩
    rw [statusUpd_completed_at_of_set _ _ _ _ (by rw [hfirst]; exact strTruthy_some_ne hnow)]
    exact hfirst

theorem update_order_status_spec_witness :
    ((OrderManager.init.create_order 1 "a" (some "idea") "tok" "t0").2.update_order_status
        "ORD000001" OrderStatus.completed "note" "t1").1 = true :=
  (update_order_status_spec (OrderManager.init.create_order 1 "a" (some "idea") "tok" "t0").2
    "ORD000001" OrderStatus.completed "note" "t1"
    (mkOrderRecord 1 "a" "ORD000001" (some "idea") "tok" "t0")
    (by decide) (by decide)).1

/-- C8: `get_stats` reports `total` as the number of stored orders and
`pending`/`processing`/`completed` as the number of orders in the
respective status; three fresh orders give total=3, pending=3, and
completing `ORD000002` gives pending=2, completed=1. -/
theorem get_stats_spec :
    (∀ (m : OrderManager) (pyInt : String → Option Int) (today : String),
        (m.get_stats pyInt today).total = m.get_all_orders.length
      ∧ (m.get_stats pyInt today).pending
          = ((m.get_all_orders).filter (fun o => o.status == OrderStatus.pending)).length
      ∧ (m.get_stats pyInt today).processing
          = ((m.get_all_orders).filter (fun o => o.status == OrderStatus.processing)).length
      ∧ (m.get_stats pyInt today).completed
          = ((m.get_all_orders).filter (fun o => o.status == OrderStatus.completed)).length)
    ∧ ((((OrderManager.init.create_order 1 "a" (some "i1") "tk" "d1").2.create_order
          2 "b" (some "i2") "tk" "d1").2.create_order
          3 "c" (some "i3") "tk" "d1").2.get_stats (fun _ => none) "d1").total = 3
    ∧ ((((OrderManager.init.create_order 1 "a" (some "i1") "tk" "d1").2.create_order
          2 "b" (some "i2") "tk" "d1").2.create_order
          3 "c" (some "i3") "tk" "d1").2.get_stats (fun _ => none) "d1").pending = 3
    ∧ (((((OrderManager.init.create_order 1 "a" (some "i1") "tk" "d1").2.create_order
          2 "b" (some "i2") "tk" "d1").2.create_order
          3 "c" (some "i3") "tk" "d1").2.update_order_status "ORD000002"
          OrderStatus.completed "" "d2").2.get_stats (fun _ => none) "d1").pending = 2
    ∧ (((((OrderManager.init.create_order 1 "a" (some "i1") "tk" "d1").2.create_order
          2 "b" (some "i2") "tk" "d1").2.create_order
          3 "c" (some "i3") "tk" "d1").2.update_order_status "ORD000002"
          OrderStatus.completed "" "d2").2.get_stats (fun _ => none) "d1").completed = 1 := by
  refine ⟨?_, by decide, by decide, by decide, by decide⟩
  intro m pyInt today
  refine ⟨?_, rfl, rfl, rfl⟩
  simp [OrderManager.get_stats, OrderManager.get_all_orders, pyDictValues]

/-! ## Reference semantics of order records

Python variables hold references: the store's dict slot and the record
returned by `create_order` / `get_order` denote the same heap object, and
`handle_text_message` relies on exactly this when it runs
`order.bot_username = bot_username` on the record `create_order` returned
(and likewise `order.admin_notes = note` on a `get_order` result).  The
heap is the list of allocated `Order` objects, addressed by allocation
index; only the list built by `get_all_orders` is fresh, its elements are
the stored references. -/

/-- The `OrderManager` under the reference semantics: the dict maps ids to heap
addresses. -/
structure OrderManagerRef : Type where
  orders : List (String × Nat)
  order_counter : Nat
deriving DecidableEq, Repr

/-- Fresh reference store. -/
def OrderManagerRef.init : OrderManagerRef :=
  { orders := [], order_counter := 1 }

/-- Method `create_order` in the reference semantics: allocate the record on the
heap, store the address, return the address of the new record. -/
def OrderManagerRef.create_order (m : OrderManagerRef) (heap : List Order) (uid : Int)
    (uname : String) (idea : Option String) (token now : String) :
    Nat × OrderManagerRef × List Order :=
  let oid := orderIdOf m.order_counter
  let addr := heap.length
  (addr,
    { orders := pyDictSet m.orders oid addr, order_counter := m.order_counter + 1 },
    heap ++ [mkOrderRecord uid uname oid idea token now])

/-- Method `get_order` in the reference semantics: the record the store's slot
points at. -/
def OrderManagerRef.get_order (m : OrderManagerRef) (heap : List Order) (oid : String) :
    Option Order :=
  (pyDictGet m.orders oid).bind (fun a => heap[a]?)

/-- Expression `list(self.orders.values())`: a fresh list holding the stored
references themselves. -/
def OrderManagerRef.get_all_orders (m : OrderManagerRef) : List Nat :=
  pyDictValues m.orders

/-- Field assignment through a reference, e.g. `order.bot_username = u`:
update the heap object in place. -/
def heapAssign (heap : List Order) (a : Nat) (f : Order → Order) : List Order :=
  match heap[a]? with
  | some o => heap.set a (f o)
  | none => heap

/-- C9 counterexample: the store does not share records by value.  After
`order = create_order(...)` and the assignment `order.bot_username =
"mybot"` of `handle_text_message` (through the returned reference), the
record the store holds for `ORD000001` has changed. -/
theorem get_order_record_not_shared_by_value :
    ¬ ((OrderManagerRef.init.create_order [] 7 "u" (some "an idea") "tok" "t").2.1.get_order
          (heapAssign
            (OrderManagerRef.init.create_order [] 7 "u" (some "an idea") "tok" "t").2.2
            (OrderManagerRef.init.create_order [] 7 "u" (some "an idea") "tok" "t").1
            (fun o => { o with bot_username := some "mybot" }))
          "ORD000001"
        = (OrderManagerRef.init.create_order [] 7 "u" (some "an idea") "tok" "t").2.1.get_order
            (OrderManagerRef.init.create_order [] 7 "u" (some "an idea") "tok" "t").2.2
            "ORD000001") := by
  decide

/-- C9 amended: order records are shared with callers by reference, not by
value: mutating a record through any reference the store also holds (as the
text handler does for `bot_username`) changes the record that every
subsequent `get_order` returns.  Only the list wrapper built by
`get_all_orders` is fresh. -/
theorem get_order_record_shared_by_reference (m : OrderManagerRef) (heap : List Order)
    (oid : String) (a : Nat) (o : Order) (u : String)
    (hslot : pyDictGet m.orders oid = some a) (haddr : heap[a]? = some o) :
    m.get_order (heapAssign heap a (fun x => { x with bot_username := some u })) oid
      = some { o with bot_username := some u } := by
  obtain ⟨hlt, -⟩ := List.getElem?_eq_some.mp haddr
  unfold OrderManagerRef.get_order heapAssign
  rw [hslot, haddr]
  simp [List.getElem?_set_eq_of_lt _ hlt]

theorem get_order_record_shared_by_reference_witness :
    (OrderManagerRef.init.create_order [] 7 "u" (some "an idea") "tok" "t").2.1.get_order
        (heapAssign
          (OrderManagerRef.init.create_order [] 7 "u" (some "an idea") "tok" "t").2.2
          0 (fun x => { x with bot_username := some "mybot" }))
        "ORD000001"
      = some { mkOrderRecord 7 "u" "ORD000001" (some "an idea") "tok" "t" with
          bot_username := some "mybot" } :=
  get_order_record_shared_by_reference
    (OrderManagerRef.init.create_order [] 7 "u" (some "an idea") "tok" "t").2.1
    (OrderManagerRef.init.create_order [] 7 "u" (some "an idea") "tok" "t").2.2
    "ORD000001" 0 (mkOrderRecord 7 "u" "ORD000001" (some "an idea") "tok" "t") "mybot"
    (by decide) (by decide)

/-! ## The `create_order` critical section under concurrent callers

`create_order` runs its whole body inside `with self.lock`.  The
interleaving semantics below lets any number of threads attempt the call
concurrently: a thread may enter the critical section only when the mutex
is free, and the body is split at the source's statement granularity (read
the counter and store the record; increment the counter; return and
release).  The label emitted on release is the counter value whose
formatted id the call returned. -/

/-- Program counter of the thread inside the `with self.lock` block. -/
inductive CSpc : Type
  | acquired
  | allocated
  | incremented
deriving DecidableEq, Repr

/-- The thread currently holding the lock: its id, position in the body,
and the counter value it read when it formatted its order id. -/
structure CSFrame : Type where
  tid : Nat
  pc : CSpc
  saved : Nat
deriving DecidableEq, Repr

/-- Arguments of one thread's `create_order` call. -/
structure CreateIn : Type where
  user_id : Int
  user_name : String
  bot_idea : Option String
  bot_token : String
  now : String

/-- Shared state: the `OrderManager` plus the mutex (`none` = free). -/
structure CState : Type where
  mgr : OrderManager
  cs : Option CSFrame

/-- One interleaving step of concurrent `create_order` calls. -/
inductive CStep (inputs : Nat → CreateIn) : CState → Option Nat → CState → Prop
  | acquire (t : Nat) (s : CState) (h : s.cs = none) :
      CStep inputs s none { s with cs := some ⟨t, .acquired, 0⟩ }
  | alloc (t : Nat) (s : CState) (c : Nat) (h : s.cs = some ⟨t, .acquired, c⟩) :
      CStep inputs s none
        { mgr :=
            { orders := pyDictSet s.mgr.orders (orderIdOf s.mgr.order_counter)
                (mkOrderRecord (inputs t).user_id (inputs t).user_name
                  (orderIdOf s.mgr.order_counter) (inputs t).bot_idea
                  (inputs t).bot_token (inputs t).now)
              order_counter := s.mgr.order_counter }
          cs := some ⟨t, .allocated, s.mgr.order_counter⟩ }
  | inc (t : Nat) (s : CState) (c : Nat) (h : s.cs = some ⟨t, .allocated, c⟩) :
      CStep inputs s none
        { mgr := { s.mgr with order_counter := s.mgr.order_counter + 1 }
          cs := some ⟨t, .incremented, c⟩ }
  | release (t : Nat) (s : CState) (c : Nat) (h : s.cs = some ⟨t, .incremented, c⟩) :
      CStep inputs s (some c) { s with cs := none }

/-- Interleaved executions, collecting the counter values of the completed
`create_order` calls in completion order. -/
inductive CTrace (inputs : Nat → CreateIn) : CState → List Nat → CState → Prop
  | nil (s : CState) : CTrace inputs s [] s
  | step (s s2 s3 : CState) (l : Option Nat) (es : List Nat) :
      CStep inputs s l s2 → CTrace inputs s2 es s3 →
      CTrace inputs s (l.toList ++ es) s3

/-- Mutual-exclusion invariant tying the counter to the number `k` of
completed calls since a start value `c0` and to the lock holder's frame. -/
def CInv (c0 k : Nat) (s : CState) : Prop :=
  match s.cs with
  | none => s.mgr.order_counter = c0 + k
  | some f =>
    match f.pc with
    | .acquired => s.mgr.order_counter = c0 + k
    | .allocated => s.mgr.order_counter = c0 + k ∧ f.saved = s.mgr.order_counter
    | .incremented => s.mgr.order_counter = c0 + k + 1 ∧ f.saved + 1 = s.mgr.order_counter

theorem CStep_inv {inputs : Nat → CreateIn} {s s2 : CState} {l : Option Nat}
    (hstep : CStep inputs s l s2) (c0 k : Nat) (hinv : CInv c0 k s) :
    CInv c0 (k + l.toList.length) s2 ∧ ∀ c, l = some c → c = c0 + k := by
  cases hstep with
  | acquire t s h =>
    refine ⟨?_, by intro c hc; cases hc⟩
    simp only [CInv, h] at hinv
    simpa [CInv] using hinv
  | alloc t s c h =>
    refine ⟨?_, by intro c hc; cases hc⟩
    simp only [CInv, h] at hinv
    simpa [CInv] using hinv
  | inc t s c h =>
    refine ⟨?_, by intro c hc; cases hc⟩
    simp only [CInv, h] at hinv
    simp [CInv]
    omega
  | release t s c h =>
    simp only [CInv, h] at hinv
    constructor
    · simp [CInv]
      omega
    · intro c2 hc2
      cases hc2
      omega

theorem CTrace_emits {inputs : Nat → CreateIn} :
    ∀ {s es s2}, CTrace inputs s es s2 → ∀ c0 k, CInv c0 k s →
      es = List.range' (c0 + k) es.length ∧ CInv c0 (k + es.length) s2 := by
  intro s es s2 htr
  induction htr with
  | nil s => intro c0 k hinv; exact ⟨rfl, hinv⟩
  | step s s2 s3 l es hstep htr ih =>
    intro c0 k hinv
    obtain ⟨hinv2, hlab⟩ := CStep_inv hstep c0 k hinv
    cases l with
    | none =>
      obtain ⟨hes, hinv3⟩ := ih c0 k (by simpa using hinv2)
      exact ⟨by simpa using hes, by simpa using hinv3⟩
    | some c =>
      have hc : c = c0 + k := hlab c rfl
      obtain ⟨hes, hinv3⟩ := ih c0 (k + 1) (by simpa using hinv2)
      subst hc
      constructor
      · simp only [Option.toList_some, List.singleton_append, List.length_cons]
        rw [List.range'_succ]
        exact congrArg _ (by simpa [Nat.add_assoc, Nat.add_comm 1] using hes)
      · simpa [Nat.add_assoc, Nat.add_comm 1] using hinv3

/-- C1: in every interleaved execution of concurrent `create_order` calls
(every lock-respecting trace from a free-mutex state), the completed calls
return the ids of consecutive counter values starting at the initial
counter, so the ids are pairwise distinct (never reused) and the
underlying counters strictly increase in completion order. -/
theorem create_order_ids_unique_and_increasing (inputs : Nat → CreateIn)
    (m0 : OrderManager) (es : List Nat) (s2 : CState)
    (htr : CTrace inputs { mgr := m0, cs := none } es s2) :
    es = List.range' m0.order_counter es.length
    ∧ (es.map orderIdOf).Nodup
    ∧ es.Pairwise (· < ·) := by
  have hinv : CInv m0.order_counter 0 { mgr := m0, cs := none } := by simp [CInv]
  obtain ⟨hes, -⟩ := CTrace_emits htr m0.order_counter 0 hinv
  rw [Nat.add_zero] at hes
  refine ⟨hes, ?_, ?_⟩
  · rw [hes]
    exact (List.nodup_range' _ _).map orderIdOf_injective
  · rw [hes]
    exact List.pairwise_lt_range' _ _

theorem create_order_ids_unique_and_increasing_witness :
    CTrace (fun _ => CreateIn.mk 1 "a" (some "idea") "tok" "t")
        { mgr := OrderManager.init, cs := none } [1]
        { mgr := (OrderManager.init.create_order 1 "a" (some "idea") "tok" "t").2, cs := none }
    ∧ ([1].map orderIdOf).Nodup ∧ [1].Pairwise (· < ·) := by
  have htr : CTrace (fun _ => CreateIn.mk 1 "a" (some "idea") "tok" "t")
      { mgr := OrderManager.init, cs := none } [1]
      { mgr := (OrderManager.init.create_order 1 "a" (some "idea") "tok" "t").2,
        cs := none } := by
    refine CTrace.step _ _ _ none _ (CStep.acquire 0 _ rfl) ?_
    refine CTrace.step _ _ _ none _ (CStep.alloc 0 _ 0 rfl) ?_
    refine CTrace.step _ _ _ none _ (CStep.inc 0 _ 1 rfl) ?_
    exact CTrace.step _ _ _ (some 1) [] (CStep.release 0 _ 1 rfl) (CTrace.nil _)
  exact ⟨htr,
    (create_order_ids_unique_and_increasing _ OrderManager.init [1] _ htr).2.1,
    (create_order_ids_unique_and_increasing _ OrderManager.init [1] _ htr).2.2⟩

/-! ## Python string primitives used by `handle_text_message`

Embedded on the character list so that concrete runs reduce in the kernel.
`Char.isWhitespace` stands for Python's whitespace class. -/

/-- Python `str.strip()`. -/
def pyStrip (s : String) : String :=
  String.mk (((s.data.dropWhile Char.isWhitespace).reverse.dropWhile
    Char.isWhitespace).reverse)

/-- Python `c in s` for a one-character needle. -/
def pyContains (s : String) (c : Char) : Bool :=
  s.data.contains c

/-- Python `s.startswith(pre)`. -/
def pyHasPre (s pre : String) : Bool :=
  pre.data.isPrefixOf s.data

/-- Replace every non-overlapping occurrence of `pat`, left to right
(`str.replace`; all uses in the source have a non-empty `pat`). -/
def replaceAux (pat rep : List Char) : Nat → List Char → List Char
  | _, [] => []
  | 0, l => l
  | fuel + 1, a :: rest =>
    if pat.isPrefixOf (a :: rest) then
      rep ++ replaceAux pat rep fuel ((a :: rest).drop pat.length)
    else a :: replaceAux pat rep fuel rest

/-- Python `s.replace(pat, rep)`. -/
def pyReplace (s pat rep : String) : String :=
  String.mk (replaceAux pat.data rep.data s.data.length s.data)

/-- Python `s.isdigit()`: non-empty and digits only. -/
def pyIsDigit (s : String) : Bool :=
  !s.data.isEmpty && s.data.all Char.isDigit

/-- Insert `','` after every three characters of a least-significant-first
digit list (helper for the thousands-separator price format). -/
def commaRev : Nat → List Char → List Char
  | 0, l => l
  | fuel + 1, a :: b :: c :: d :: rest => a :: b :: c :: ',' :: commaRev fuel (d :: rest)
  | _ + 1, l => l

/-- Python format `:,` on `n`: decimal with thousands separators. -/
def pyCommaFmt (n : Nat) : String :=
  String.mk ((commaRev (decRepr n).length (decRepr n).reverse).reverse)

/-! ## The idea→token intake state machine -/

/-- Outcome of the `getMe` validation request for a submitted token:
`ok` with the platform's username/first_name pair, a not-`ok` response, or
a `requests` exception. -/
inductive ApiResult : Type
  | ok (username first_name : String)
  | rejected
  | netError
deriving DecidableEq, Repr

/-- The inbound interactions of one user that touch the conversation state
store or the order store: the `/start`-family commands (which clear the
state), the state-changing inline-keyboard callbacks, and a plain text
message (carrying the environment's answer to the token validation and
the current time).  Read-only interactions (`/myorders`, the stats and
listing callbacks) modify neither store and have identity steps. -/
inductive Ev : Type
  | cmdStart
  | cbOrderBot
  | cbMainMenu
  | cbSetPrice (oid : String)
  | cbAddNote (oid : String)
  | cbStatusProcessing (oid now : String)
  | cbStatusCompleted (oid now : String)
  | text (msg : String) (api : ApiResult) (now : String)
deriving DecidableEq, Repr

/-- The two shared stores acted on by the handlers. -/
structure BotConfig : Type where
  ustate : UserState String
  mgr : OrderManager

/-- Assignment `order.bot_username = u` on the record `create_order` returned: by
reference sharing this updates the stored record (line 893). -/
def OrderManager.assign_bot_username (m : OrderManager) (oid : String) (u : String) :
    OrderManager :=
  match pyDictGet m.orders oid with
  | some o => { m with orders := pyDictSet m.orders oid { o with bot_username := some u } }
  | none => m

/-- Assignment `order.admin_notes = note` on a `get_order` result (adding-note admin
flow); no-op when the order is absent. -/
def OrderManager.assign_admin_notes (m : OrderManager) (oid : String) (note : String) :
    OrderManager :=
  match pyDictGet m.orders oid with
  | some o => { m with orders := pyDictSet m.orders oid { o with admin_notes := note } }
  | none => m

/-- Handler `handle_text_message` for user `uid` with display name `uname` and
admin flag `admin` (membership in `ADMIN_IDS`). -/
def stepText (uid : Int) (uname : String) (admin : Bool) (cfg : BotConfig)
    (msg : String) (api : ApiResult) (now : String) : BotConfig :=
  let current_state := cfg.ustate.get_state uid
  if current_state = some "waiting_for_idea" then
    if (pyStrip msg).length < 10 then cfg
    else
      { cfg with
        ustate := (cfg.ustate.set_data uid "bot_idea" msg).set_state uid
          "waiting_for_token" }
  else if current_state = some "waiting_for_token" then
    let token := pyStrip msg
    if pyContains token ':' = false ∨ token.length < 20 then cfg
    else
      match api with
      | .ok busername _bfirst =>
        let bot_idea := cfg.ustate.get_data_opt uid "bot_idea"
        let r := cfg.mgr.create_order uid uname bot_idea token now
        { ustate := cfg.ustate.clear_state uid
          mgr := r.2.assign_bot_username r.1.order_id busername }
      | .rejected => cfg
      | .netError => cfg
  else if strTruthy current_state
      && pyHasPre (current_state.getD "") "setting_price_" then
    if admin then
      if pyIsDigit msg then
        let oid := pyReplace (current_state.getD "") "setting_price_" ""
        let price := decVal msg.data
        let mgr1 := (cfg.mgr.update_order_details oid
          (some (pyCommaFmt price ++ " تومان")) none none).2
        { ustate := cfg.ustate.clear_state uid
          mgr := (mgr1.update_order_status oid .processing "" now).2 }
      else cfg
    else cfg
  else if strTruthy current_state
      && pyHasPre (current_state.getD "") "adding_note_" then
    if admin then
      let oid := pyReplace (current_state.getD "") "adding_note_" ""
      let note := pyStrip msg
      if note = "" then cfg
      else
        { ustate := cfg.ustate.clear_state uid
          mgr := cfg.mgr.assign_admin_notes oid note }
    else cfg
  else cfg

/-- One inbound interaction of user `uid`. -/
def stepEv (uid : Int) (uname : String) (admin : Bool) (cfg : BotConfig) : Ev → BotConfig
  | .cmdStart => { cfg with ustate := cfg.ustate.clear_state uid }
  | .cbOrderBot => { cfg with ustate := cfg.ustate.set_state uid "waiting_for_idea" }
  | .cbMainMenu => { cfg with ustate := cfg.ustate.clear_state uid }
  | .cbSetPrice oid =>
    if admin then
      { cfg with ustate := cfg.ustate.set_state uid ("setting_price_" ++ oid) }
    else cfg
  | .cbAddNote oid =>
    if admin then
      { cfg with ustate := cfg.ustate.set_state uid ("adding_note_" ++ oid) }
    else cfg
  | .cbStatusProcessing oid now =>
    if admin then
      { cfg with mgr := (cfg.mgr.update_order_status oid .processing "" now).2 }
    else cfg
  | .cbStatusCompleted oid now =>
    if admin then
      { cfg with mgr := (cfg.mgr.update_order_status oid .completed "" now).2 }
    else cfg
  | .text msg api now => stepText uid uname admin cfg msg api now

/-- A whole inbound interaction sequence. -/
def runEvents (uid : Int) (uname : String) (admin : Bool) (cfg : BotConfig)
    (es : List Ev) : BotConfig :=
  es.foldl (stepEv uid uname admin) cfg

theorem update_order_status_counter (m : OrderManager) (oid : String) (st : OrderStatus)
    (notes now : String) :
    (m.update_order_status oid st notes now).2.order_counter = m.order_counter := by
  rcases h : pyDictGet m.orders oid with _ | o <;>
    simp [OrderManager.update_order_status, h]

theorem update_order_details_counter (m : OrderManager) (oid : String)
    (price time notes : Option String) :
    (m.update_order_details oid price time notes).2.order_counter = m.order_counter := by
  rcases h : pyDictGet m.orders oid with _ | o <;>
    simp [OrderManager.update_order_details, h]

theorem assign_bot_username_counter (m : OrderManager) (oid u : String) :
    (m.assign_bot_username oid u).order_counter = m.order_counter := by
  rcases h : pyDictGet m.orders oid with _ | o <;>
    simp [OrderManager.assign_bot_username, h]

theorem assign_admin_notes_counter (m : OrderManager) (oid note : String) :
    (m.assign_admin_notes oid note).order_counter = m.order_counter := by
  rcases h : pyDictGet m.orders oid with _ | o <;>
    simp [OrderManager.assign_admin_notes, h]

theorem get_state_clear {α : Type} (s : UserState α) (u : Int) :
    (s.clear_state u).get_state u = none :=
  pyDictGet_pop_self s.user_states u

theorem get_state_set {α : Type} (s : UserState α) (u : Int) (st : String) :
    (s.set_state u st).get_state u = some st :=
  pyDictGet_set_self s.user_states u st

theorem get_state_set_data {α : Type} (s : UserState α) (u u2 : Int) (k : String) (v : α) :
    (s.set_data u k v).get_state u2 = s.get_state u2 :=
  rfl

theorem setting_price_ne_token (oid : String) :
    ("setting_price_" ++ oid) ≠ "waiting_for_token" := by
  intro hcon
  have h2 : ('s' :: ("etting_price_".data ++ oid.data)) = 'w' :: "aiting_for_token".data := by
    have h1 := congrArg String.data hcon
    rw [String.data_append] at h1
    exact h1
  have h3 : 's' = 'w' := ((List.cons.injEq _ _ _ _).mp h2).1
  exact absurd h3 (by decide)

theorem adding_note_ne_token (oid : String) :
    ("adding_note_" ++ oid) ≠ "waiting_for_token" := by
  intro hcon
  have h2 : ('a' :: ("dding_note_".data ++ oid.data)) = 'w' :: "aiting_for_token".data := by
    have h1 := congrArg String.data hcon
    rw [String.data_append] at h1
    exact h1
  have h3 : 'a' = 'w' := ((List.cons.injEq _ _ _ _).mp h2).1
  exact absurd h3 (by decide)

/-- A step changes the order counter only in the valid-token branch: the
user was in `waiting_for_token` and sent a text whose stripped form passes
the shape check and whose validation came back `ok`. -/
theorem stepEv_counter_change (uid : Int) (uname : String) (admin : Bool)
    (cfg : BotConfig) (e : Ev)
    (h : (stepEv uid uname admin cfg e).mgr.order_counter ≠ cfg.mgr.order_counter) :
    cfg.ustate.get_state uid = some "waiting_for_token"
    ∧ ∃ msg api now, e = Ev.text msg api now
        ∧ pyContains (pyStrip msg) ':' = true
        ∧ 20 ≤ (pyStrip msg).length
        ∧ ∃ bu bf, api = ApiResult.ok bu bf := by
  cases e with
  | cmdStart => exact absurd rfl h
  | cbOrderBot => exact absurd rfl h
  | cbMainMenu => exact absurd rfl h
  | cbSetPrice oid => cases admin <;> simp [stepEv] at h
  | cbAddNote oid => cases admin <;> simp [stepEv] at h
  | cbStatusProcessing oid now =>
    cases admin <;> simp [stepEv, update_order_status_counter] at h
  | cbStatusCompleted oid now =>
    cases admin <;> simp [stepEv, update_order_status_counter] at h
  | text msg api now =>
    simp only [stepEv, stepText] at h
    by_cases h1 : cfg.ustate.get_state uid = some "waiting_for_idea"
    · rw [if_pos h1] at h
      by_cases hlen : (pyStrip msg).length < 10
      · rw [if_pos hlen] at h
        exact absurd rfl h
      · rw [if_neg hlen] at h
        exact absurd rfl h
    · rw [if_neg h1] at h
      by_cases h2 : cfg.ustate.get_state uid = some "waiting_for_token"
      · rw [if_pos h2] at h
        by_cases h3 : pyContains (pyStrip msg) ':' = false ∨ (pyStrip msg).length < 20
        · rw [if_pos h3] at h
          exact absurd rfl h
        · rw [if_neg h3] at h
          push_neg at h3
          obtain ⟨h3a, h3b⟩ := h3
          cases api with
          | ok bu bf =>
            exact ⟨h2, msg, ApiResult.ok bu bf, now, rfl,
              by simpa using h3a, by omega, bu, bf, rfl⟩
          | rejected => exact absurd rfl h
          | netError => exact absurd rfl h
      · rw [if_neg h2] at h
        by_cases h3 : (strTruthy (cfg.ustate.get_state uid)
            && pyHasPre ((cfg.ustate.get_state uid).getD "") "setting_price_") = true
        · rw [if_pos h3] at h
          cases admin with
          | false => simp at h
          | true =>
            simp only [if_pos rfl] at h
            by_cases h4 : pyIsDigit msg = true
            · rw [if_pos h4] at h
              simp [update_order_status_counter, update_order_details_counter] at h
            · rw [if_neg h4] at h
              exact absurd rfl h
        · rw [if_neg h3] at h
          by_cases h4 : (strTruthy (cfg.ustate.get_state uid)
              && pyHasPre ((cfg.ustate.get_state uid).getD "") "adding_note_") = true
          · rw [if_pos h4] at h
            cases admin with
            | false => simp at h
            | true =>
              simp only [if_pos rfl] at h
              by_cases h5 : pyStrip msg = ""
              · rw [if_pos h5] at h
                exact absurd rfl h
              · rw [if_neg h5] at h
                simp [assign_admin_notes_counter] at h
          · rw [if_neg h4] at h
            exact absurd rfl h

/-- A step leaves the user in `waiting_for_token` only if it is the
valid-idea transition out of `waiting_for_idea` or the user was already
in `waiting_for_token`. -/
theorem stepEv_state_token (uid : Int) (uname : String) (admin : Bool)
    (cfg : BotConfig) (e : Ev)
    (h : (stepEv uid uname admin cfg e).ustate.get_state uid
        = some "waiting_for_token") :
    (∃ msg api now, e = Ev.text msg api now
        ∧ cfg.ustate.get_state uid = some "waiting_for_idea"
        ∧ 10 ≤ (pyStrip msg).length)
    ∨ cfg.ustate.get_state uid = some "waiting_for_token" := by
  cases e with
  | cmdStart => simp [stepEv, get_state_clear] at h
  | cbOrderBot =>
    simp only [stepEv, get_state_set, Option.some.injEq] at h
    exact absurd h (by decide)
  | cbMainMenu => simp [stepEv, get_state_clear] at h
  | cbSetPrice oid =>
    cases admin with
    | false =>
      simp only [stepEv, Bool.false_eq_true, if_false] at h
      exact Or.inr h
    | true =>
      simp only [stepEv] at h
      rw [if_pos trivial, get_state_set] at h
      exact absurd (Option.some.inj h) (setting_price_ne_token oid)
  | cbAddNote oid =>
    cases admin with
    | false =>
      simp only [stepEv, Bool.false_eq_true, if_false] at h
      exact Or.inr h
    | true =>
      simp only [stepEv] at h
      rw [if_pos trivial, get_state_set] at h
      exact absurd (Option.some.inj h) (adding_note_ne_token oid)
  | cbStatusProcessing oid now =>
    cases admin with
    | false =>
      simp only [stepEv, Bool.false_eq_true, if_false] at h
      exact Or.inr h
    | true =>
      simp only [stepEv, if_pos rfl] at h
      exact Or.inr h
  | cbStatusCompleted oid now =>
    cases admin with
    | false =>
      simp only [stepEv, Bool.false_eq_true, if_false] at h
      exact Or.inr h
    | true =>
      simp only [stepEv, if_pos rfl] at h
      exact Or.inr h
  | text msg api now =>
    simp only [stepEv, stepText] at h
    by_cases h1 : cfg.ustate.get_state uid = some "waiting_for_idea"
    · rw [if_pos h1] at h
      by_cases hlen : (pyStrip msg).length < 10
      · rw [if_pos hlen] at h
        exact absurd h1 (by rw [h]; decide)
      · exact Or.inl ⟨msg, api, now, rfl, h1, by omega⟩
    · rw [if_neg h1] at h
      by_cases h2 : cfg.ustate.get_state uid = some "waiting_for_token"
      · rw [if_pos h2] at h
        exact Or.inr h2
      · rw [if_neg h2] at h
        by_cases h3 : (strTruthy (cfg.ustate.get_state uid)
            && pyHasPre ((cfg.ustate.get_state uid).getD "") "setting_price_") = true
        · rw [if_pos h3] at h
          cases admin with
          | false =>
            simp only [Bool.false_eq_true, if_false] at h
            exact Or.inr h
          | true =>
            simp only [if_pos rfl] at h
            by_cases h4 : pyIsDigit msg = true
            · rw [if_pos h4] at h
              simp [get_state_clear] at h
            · rw [if_neg h4] at h
              exact Or.inr h
        · rw [if_neg h3] at h
          by_cases h4 : (strTruthy (cfg.ustate.get_state uid)
              && pyHasPre ((cfg.ustate.get_state uid).getD "") "adding_note_") = true
          · rw [if_pos h4] at h
            cases admin with
            | false =>
              simp only [Bool.false_eq_true, if_false] at h
              exact Or.inr h
            | true =>
              simp only [if_pos rfl] at h
              by_cases h5 : pyStrip msg = ""
              · rw [if_pos h5] at h
                exact Or.inr h
              · rw [if_neg h5] at h
                simp [get_state_clear] at h
          · rw [if_neg h4] at h
            exact Or.inr h

theorem runEvents_append_one (uid : Int) (uname : String) (admin : Bool)
    (cfg : BotConfig) (es : List Ev) (e : Ev) :
    runEvents uid uname admin cfg (es ++ [e])
      = stepEv uid uname admin (runEvents uid uname admin cfg es) e := by
  simp [runEvents, List.foldl_append]

/-- Whenever a run starting from the idle sentinel ends in
`waiting_for_token`, some earlier event was a text message of stripped
length at least 10 delivered in `waiting_for_idea`, and the state has been
`waiting_for_token` ever since. -/
theorem token_state_history (uid : Int) (uname : String) (admin : Bool)
    (cfg0 : BotConfig) (h0 : cfg0.ustate.get_state uid = none) :
    ∀ es, (runEvents uid uname admin cfg0 es).ustate.get_state uid
        = some "waiting_for_token" →
      ∃ j, j < es.length
        ∧ (∃ m2 a2 n2, es[j]? = some (Ev.text m2 a2 n2)
            ∧ (runEvents uid uname admin cfg0 (es.take j)).ustate.get_state uid
                = some "waiting_for_idea"
            ∧ 10 ≤ (pyStrip m2).length)
        ∧ ∀ k, j < k → k < es.length →
            (runEvents uid uname admin cfg0 (es.take (k + 1))).ustate.get_state uid
              = some "waiting_for_token" := by
  intro es
  induction es using List.reverseRecOn with
  | nil =>
    intro h
    rw [show runEvents uid uname admin cfg0 [] = cfg0 from rfl, h0] at h
    cases h
  | append_singleton es e ih =>
    intro h
    have hfull := h
    rw [runEvents_append_one] at h
    rcases stepEv_state_token uid uname admin _ e h with ⟨m2, a2, n2, he, hpre, hlen⟩ | hpre
    · refine ⟨es.length, by simp, ⟨m2, a2, n2, ?_, ?_, hlen⟩, ?_⟩
      · rw [List.getElem?_concat_length, he]
      · rw [List.take_left]
        exact hpre
      · intro k hk1 hk2
        simp only [List.length_append, List.length_cons, List.length_nil] at hk2
        omega
    · obtain ⟨j, hj, ⟨m2, a2, n2, hget, hpre2, hlen2⟩, hall⟩ := ih hpre
      refine ⟨j, by simp; omega, ⟨m2, a2, n2, ?_, ?_, hlen2⟩, ?_⟩
      · rw [List.getElem?_append_left hj]
        exact hget
      · rw [List.take_append_of_le_length (le_of_lt hj)]
        exact hpre2
      · intro k hk1 hk2
        simp only [List.length_append, List.length_cons, List.length_nil] at hk2
        by_cases hke : k < es.length
        · rw [List.take_append_of_le_length (by omega)]
          exact hall k hk1 hke
        · have hkeq : k = es.length := by omega
          subst hkeq
          have hlenfull : (es ++ [e]).length = es.length + 1 := by simp
          rw [← hlenfull, List.take_length]
          exact hfull

/-- C2: starting from the idle state, a step of the intake state machine
increases the order counter (creates an order) only when the user is in
`waiting_for_token` and sends a text whose stripped form contains `':'`,
has length at least 20, and is validated `ok` by the platform; moreover
some strictly earlier message was an idea of stripped length at least 10
delivered in `waiting_for_idea`, and the conversation stayed in
`waiting_for_token` at every point in between (no intervening clear).  In
particular no order is created after only one of the two inputs. -/
theorem intake_order_requires_idea_then_valid_token (uid : Int) (uname : String)
    (admin : Bool) (cfg0 : BotConfig) (es : List Ev) (i : Nat)
    (h0 : cfg0.ustate.get_state uid = none) (hi : i < es.length)
    (hcreate : (runEvents uid uname admin cfg0 (es.take (i + 1))).mgr.order_counter
        ≠ (runEvents uid uname admin cfg0 (es.take i)).mgr.order_counter) :
    (runEvents uid uname admin cfg0 (es.take i)).ustate.get_state uid
        = some "waiting_for_token"
    ∧ (∃ msg api now, es[i]? = some (Ev.text msg api now)
        ∧ pyContains (pyStrip msg) ':' = true
        ∧ 20 ≤ (pyStrip msg).length
        ∧ ∃ bu bf, api = ApiResult.ok bu bf)
    ∧ ∃ j, j < i
        ∧ (∃ m2 a2 n2, es[j]? = some (Ev.text m2 a2 n2)
            ∧ (runEvents uid uname admin cfg0 (es.take j)).ustate.get_state uid
                = some "waiting_for_idea"
            ∧ 10 ≤ (pyStrip m2).length)
        ∧ ∀ k, j < k → k < i →
            (runEvents uid uname admin cfg0 (es.take (k + 1))).ustate.get_state uid
              = some "waiting_for_token" := by
  have he : es[i]? = some es[i] := List.getElem?_eq_getElem hi
  have htake : es.take (i + 1) = es.take i ++ [es[i]] := by
    rw [List.take_succ, he]
    rfl
  rw [htake, runEvents_append_one] at hcreate
  obtain ⟨hstate, msg, api, now, hetext, hcolon, hlen20, bu, bf, hok⟩ :=
    stepEv_counter_change uid uname admin _ es[i] hcreate
  obtain ⟨j, hj, ⟨m2, a2, n2, hget, hpre2, hlen2⟩, hall⟩ :=
    token_state_history uid uname admin cfg0 h0 (es.take i) hstate
  have hjlen : j < i := by
    rw [List.length_take] at hj
    omega
  refine ⟨hstate, ⟨msg, api, now, by rw [he, hetext], hcolon, hlen20, bu, bf, hok⟩,
    j, hjlen, ⟨m2, a2, n2, ?_, ?_, hlen2⟩, ?_⟩
  · rw [List.getElem?_take] at hget
    rw [if_pos hjlen] at hget
    exact hget
  · have htj : (es.take i).take j = es.take j := by
      rw [List.take_take]
      congr 1
      omega
    rw [htj] at hpre2
    exact hpre2
  · intro k hk1 hk2
    have hk3 : k < (es.take i).length := by
      rw [List.length_take]
      omega
    have := hall k hk1 hk3
    have htk : (es.take i).take (k + 1) = es.take (k + 1) := by
      rw [List.take_take]
      congr 1
      omega
    rw [htk] at this
    exact this

theorem intake_order_requires_idea_then_valid_token_witness :
    (runEvents 5 "u" false ⟨UserState.init, OrderManager.init⟩
        ([Ev.cbOrderBot, Ev.text "0123456789" ApiResult.rejected "t1",
          Ev.text "0123456789:ABCDEFGHIJ" (ApiResult.ok "mybot" "My Bot") "t2"].take
          2)).ustate.get_state 5
      = some "waiting_for_token" :=
  (intake_order_requires_idea_then_valid_token 5 "u" false
    ⟨UserState.init, OrderManager.init⟩
    [Ev.cbOrderBot, Ev.text "0123456789" ApiResult.rejected "t1",
      Ev.text "0123456789:ABCDEFGHIJ" (ApiResult.ok "mybot" "My Bot") "t2"] 2
    rfl (by decide) (by decide)).1
